import Mathlib

/-!
Verification of the notes-and-demos repository: a shallow embedding of the
repository's own code (the DVC pipeline definition `dvc.yaml`, the SQLAlchemy
models `Person` and `Address`, the SpaCy pipeline component
`custom_sentence_delimiters`, the JAX gradient-descent and sum-of-squares
demos, and the two PyTorch linear-regression training loops), together with
theorems settling the specification's claims about them.

Machine floats in the demos are modelled by exact rationals; the gradients
produced by the external autodiff engines (jax.grad, torch backward) are
modelled by their mathematical derivatives, which we justify against
Mathlib's `HasDerivAt` where a claim is about a gradient.
-/

namespace NotesAndDemos

/-! ## DVC pipeline definition (src/demos/dvc-pipelines/dvc.yaml) -/

/-- A metrics file entry of a stage, with its `cache` flag. -/
structure MetricFile where
  path : String
  cache : Bool
deriving DecidableEq, Repr

/-- One stage of the `dvc.yaml` pipeline definition. -/
structure Stage where
  name : String
  cmd : String
  deps : List String
  params : List String
  outs : List String
  metrics : List MetricFile
deriving DecidableEq, Repr

/-- The `get_data` stage of `dvc.yaml`. -/
def get_data : Stage :=
  { name := "get_data"
    cmd := "python stages/get_data.py"
    deps := ["stages/get_data.py"]
    params := []
    outs := ["artefacts/dataset.csv"]
    metrics := [] }

/-- The `train_model` stage of `dvc.yaml`. -/
def train_model : Stage :=
  { name := "train_model"
    cmd := "python stages/train_model.py"
    deps := ["artefacts/dataset.csv", "stages/get_data.py"]
    params := ["train.random_state"]
    outs := ["artefacts/model.joblib"]
    metrics := [{ path := "metrics/metrics.json", cache := false }] }

/-- The full list of stages declared in `dvc.yaml`, in declaration order. -/
def dvcStages : List Stage := [get_data, train_model]

/-- Stage `b` depends on stage `a` when some declared output of `a` appears
among the declared dependencies of `b`. -/
def dependsOn (b a : Stage) : Bool :=
  a.outs.any (fun o => b.deps.contains o)

/-! ## SQLAlchemy models (models.py, reproduced in the sqlalchemy notebook) -/

/-- Column types used by the models. -/
inductive ColType where
  | integer
  | float
  | str
deriving DecidableEq, Repr

/-- A single SQLAlchemy `Column(...)` declaration: its name, type, and the
constraints it places on stored rows (`primary_key`, a foreign-key target,
and nullability; `nullable` records the effective value, which defaults to
`true` for non-primary-key columns). -/
structure ColumnDecl where
  name : String
  ctype : ColType
  primaryKey : Bool
  autoincrement : Bool
  foreignKey : Option String
  nullable : Bool
deriving DecidableEq, Repr

/-- A `relationship(...)` declaration: its target model class and its
`back_populates` attribute name. -/
structure RelationshipDecl where
  target : String
  backPopulates : String
deriving DecidableEq, Repr

/-- A declarative model class: table name, column declarations, and named
relationship attributes. -/
structure ModelDecl where
  tablename : String
  columns : List ColumnDecl
  relationships : List (String × RelationshipDecl)
deriving DecidableEq, Repr

/-- The column declarations of the `Person` model. -/
def personColumns : List ColumnDecl :=
  [ { name := "id", ctype := .integer, primaryKey := true,
      autoincrement := true, foreignKey := none, nullable := false }
  , { name := "address_id", ctype := .integer, primaryKey := false,
      autoincrement := false, foreignKey := some "address.id", nullable := true }
  , { name := "name", ctype := .str, primaryKey := false,
      autoincrement := false, foreignKey := none, nullable := false }
  , { name := "age", ctype := .float, primaryKey := false,
      autoincrement := false, foreignKey := none, nullable := false } ]

/-- The column declarations of the `Address` model. -/
def addressColumns : List ColumnDecl :=
  [ { name := "id", ctype := .integer, primaryKey := true,
      autoincrement := true, foreignKey := none, nullable := false }
  , { name := "street", ctype := .str, primaryKey := false,
      autoincrement := false, foreignKey := none, nullable := false }
  , { name := "city", ctype := .str, primaryKey := false,
      autoincrement := false, foreignKey := none, nullable := false }
  , { name := "postcode", ctype := .str, primaryKey := false,
      autoincrement := false, foreignKey := none, nullable := false } ]

/-- The `Person` model class declaration. -/
def personModel : ModelDecl :=
  { tablename := "person"
    columns := personColumns
    relationships := [("address", { target := "Address", backPopulates := "person" })] }

/-- The `Address` model class declaration. -/
def addressModel : ModelDecl :=
  { tablename := "address"
    columns := addressColumns
    relationships := [("person", { target := "Person", backPopulates := "address" })] }

/-- Every column declared by the two-table schema. -/
def schemaColumns : List ColumnDecl := personColumns ++ addressColumns

/-- Model `many` is related one-to-many from `one` when `many` carries a
foreign-key column referencing `one`'s `id` column. -/
def manyToOneOf (many one : ModelDecl) : Bool :=
  many.columns.any (fun c => c.foreignKey = some (one.tablename ++ ".id"))

/-! ## Row objects and their `dict` methods (models.py) -/

/-- A Python value as it appears in the dictionaries returned by the models'
`dict` methods. -/
inductive PyValue where
  | intVal : Int → PyValue
  | floatVal : ℚ → PyValue
  | strVal : String → PyValue
  | noneVal : PyValue
deriving DecidableEq, Repr

/-- Value of a nullable integer column attribute. -/
def optInt : Option Int → PyValue
  | none => .noneVal
  | some n => .intVal n

/-- A `Person` row object: its column attributes. `id` and `address_id` may
be `None` (before a flush, resp. because the column is nullable). -/
structure Person where
  id : Option Int
  address_id : Option Int
  name : String
  age : ℚ
deriving DecidableEq, Repr

/-- The `Person.dict` method. -/
def Person.dict (p : Person) : List (String × PyValue) :=
  [ ("id", optInt p.id)
  , ("address_id", optInt p.address_id)
  , ("name", .strVal p.name)
  , ("age", .floatVal p.age) ]

/-- An `Address` row object: its column attributes. -/
structure Address where
  id : Option Int
  street : String
  city : String
  postcode : String
deriving DecidableEq, Repr

/-- The `Address.dict` method. -/
def Address.dict (a : Address) : List (String × PyValue) :=
  [ ("id", optInt a.id)
  , ("street", .strVal a.street)
  , ("city", .strVal a.city)
  , ("postcode", .strVal a.postcode) ]

/-! ## JAX auto-differentiation demo (jax notebook) -/

/-- The objective of the toy optimization loop, `f(x) = (x - 2) ** 2`,
in exact arithmetic. -/
def f (x : ℚ) : ℚ := (x - 2) ^ 2

/-- The same objective over the reals, used to justify the modelled
gradient against the mathematical derivative. -/
def fR (x : ℝ) : ℝ := (x - 2) ^ 2

/-- Modelled from the gradient the external autodiff engine (`jax.grad`)
returns for `f`: the derivative `2 * (x - 2)`. -/
def f_dx (x : ℚ) : ℚ := 2 * (x - 2)

/-- The learning rate `eta = 0.1` of the toy loop. -/
def eta : ℚ := 1 / 10

/-- One update of the loop body, `x -= eta * jax.grad(f)(x)`. -/
def gdStep (x : ℚ) : ℚ := x - eta * f_dx x

/-- The iterates of the loop: `x0 = -3.5`, then 50 updates. -/
def gdIter : ℕ → ℚ
  | 0 => -7 / 2
  | n + 1 => gdStep (gdIter n)

/-- The vector-valued demo function `sum_of_squares(x) = jnp.sum(x ** 2)`,
in exact arithmetic over a list of coordinates. -/
def sum_of_squares (x : List ℚ) : ℚ := (x.map (fun v => v ^ 2)).sum

/-- The same function over the reals, used to justify the modelled gradient
against the mathematical partial derivatives. -/
def sum_of_squaresR (x : List ℝ) : ℝ := (x.map (fun v => v ^ 2)).sum

/-- Modelled from the gradient the external autodiff engine returns for
`sum_of_squares` (`sum_of_squares_dx = jax.grad(sum_of_squares)`): the
elementwise map `x ↦ 2 * x`. -/
def sum_of_squares_dx (x : List ℚ) : List ℚ := x.map (fun v => 2 * v)

/-! ## SpaCy pipeline component (spacy notebook) -/

/-- A SpaCy token: its `text`, its `is_sent_start` attribute (`None`,
`True` or `False` in Python, hence `Option Bool`), and all its remaining
attributes bundled opaquely in `attrs`. -/
structure Token (α : Type) where
  text : String
  is_sent_start : Option Bool
  attrs : α

/-- The `delimiters` list of the component. -/
def delimiters : List String := ["..."]

/-- The in-place assignment `doc[j].is_sent_start = True` (a no-op when `j`
is out of range, which never happens in the component's loop). -/
def markSentStart {α : Type} (d : List (Token α)) (j : ℕ) : List (Token α) :=
  d.modify (fun t => { t with is_sent_start := some true }) j

/-- One iteration of the component's loop body at index `i`:
`if token.text in delimiters: doc[token.i+1].is_sent_start = True`. -/
def csdStep {α : Type} (d : List (Token α)) (i : ℕ) : List (Token α) :=
  match d[i]? with
  | some t => if t.text ∈ delimiters then markSentStart d (i + 1) else d
  | none => d

/-- The `custom_sentence_delimiters` pipeline component: iterate the loop
body over `doc[:-1]`, i.e. over the indices `0 .. len(doc) - 2`, and return
the (mutated) document. -/
def custom_sentence_delimiters {α : Type} (doc : List (Token α)) : List (Token α) :=
  (List.range (doc.length - 1)).foldl csdStep doc

/-! ## Monadic embeddings for the error-handling claim

The two exemplar functions named by the spec, `custom_sentence_delimiters`
and `train_linear_regression`, are re-embedded in the `Except` monad with
their calls into the external frameworks abstracted as fallible operations.
The embeddings mirror the Python code statement for statement: it contains
no `try`/`except`, so the embeddings use only monadic sequencing. -/

/-- Loop body of `custom_sentence_delimiters` with the attribute assignment
`doc[token.i+1].is_sent_start = True` abstracted as the fallible external
operation `assign`. -/
def csdStepE {α ε : Type} (assign : List (Token α) → ℕ → Except ε (List (Token α)))
    (d : List (Token α)) (i : ℕ) : Except ε (List (Token α)) :=
  match d[i]? with
  | some t => if t.text ∈ delimiters then assign d (i + 1) else pure d
  | none => pure d

/-- The `custom_sentence_delimiters` component in the `Except` monad. -/
def custom_sentence_delimitersE {α ε : Type}
    (assign : List (Token α) → ℕ → Except ε (List (Token α)))
    (doc : List (Token α)) : Except ε (List (Token α)) :=
  (List.range (doc.length - 1)).foldlM (csdStepE assign) doc

/-- One `process_batch` call of `train_linear_regression` in the `Except`
monad, with the whole batch step (forward, loss, backward, parameter
updates) abstracted as the fallible external operation `pb`, appending the
batch's loss to the epoch's loss list. -/
def process_batchE {σ β ε : Type} (pb : σ → β → Except ε (σ × ℚ))
    (acc : σ × List ℚ) (batch : β) : Except ε (σ × List ℚ) := do
  let r ← pb acc.1 batch
  pure (r.1, acc.2 ++ [r.2])

/-- One `process_epoch` call: run `process_batch` over every batch of the
data loader, collecting the losses. -/
def process_epochE {σ β ε : Type} (pb : σ → β → Except ε (σ × ℚ))
    (batches : List β) (s : σ) : Except ε (σ × List ℚ) :=
  batches.foldlM (process_batchE pb) (s, [])

/-- One iteration of the training run: run an epoch and record its losses. -/
def run_epochE {σ β ε : Type} (pb : σ → β → Except ε (σ × ℚ)) (batches : List β)
    (acc : σ × List (List ℚ)) (_ : ℕ) : Except ε (σ × List (List ℚ)) := do
  let r ← process_epochE pb batches acc.1
  pure (r.1, acc.2 ++ [r.2])

/-- The `train_linear_regression` training loop in the `Except` monad:
`n_epochs` epochs over the data loader's batches from initial parameters
`s`. -/
def train_linear_regressionE {σ β ε : Type} (pb : σ → β → Except ε (σ × ℚ))
    (batches : List β) (n_epochs : ℕ) (s : σ) : Except ε (σ × List (List ℚ)) :=
  (List.range n_epochs).foldlM (run_epochE pb batches) (s, [])

/-! ## PyTorch linear-regression training loops (pytorch notebook)

Both loops are embedded in exact arithmetic over `ℚ`. The backward pass of
the external autodiff engine is modelled, in both loops alike, by the
mathematical gradient of the mean-squared-error loss: for a batch of pairs
`(x, y)` and prediction `ŷ`, `∂loss/∂w = mean(2(ŷ - y)x)` and
`∂loss/∂b = mean(2(ŷ - y))`. -/

/-- Mean of a list of rationals (`torch.mean` on a 1-d tensor). -/
def meanQ (l : List ℚ) : ℚ := l.sum / l.length

/-- One `process_batch` step of the from-first-principles loop
`train_linear_regression`: forward `y_hat = b + w * x` (the hand-written
`LinearRegression.forward`), loss `mean((y_hat - y)^2)` (the hand-written
`MSELoss.forward`), both gradients taken at the pre-update parameters,
then `w -= lr * w.grad` and `b -= lr * b.grad`; returns the new parameters
and the batch's (pre-update) loss. -/
def processBatchFP (lr : ℚ) (s : ℚ × ℚ) (batch : List (ℚ × ℚ)) : (ℚ × ℚ) × ℚ :=
  let w := s.1
  let b := s.2
  let y_hat := batch.map (fun p => b + w * p.1)
  let loss := meanQ ((y_hat.zip batch).map (fun q => (q.1 - q.2.2) ^ 2))
  let gw := meanQ ((y_hat.zip batch).map (fun q => 2 * (q.1 - q.2.2) * q.2.1))
  let gb := meanQ ((y_hat.zip batch).map (fun q => 2 * (q.1 - q.2.2)))
  ((w - lr * gw, b - lr * gb), loss)

/-- Modelled from the external library: `torch.nn.Linear(1, 1)` computes
`weight * x + bias`. -/
def linearForward (weight bias x : ℚ) : ℚ := weight * x + bias

/-- Modelled from the external library: `torch.nn.MSELoss()` with its
default mean reduction. -/
def mseLossPT (y_hat y : List ℚ) : ℚ :=
  meanQ ((y_hat.zip y).map (fun q => (q.1 - q.2) ^ 2))

/-- Modelled from the external library: one `torch.optim.SGD` update of a
parameter (no momentum, no weight decay): `p -= lr * grad`. -/
def sgdStepPT (lr p g : ℚ) : ℚ := p - lr * g

/-- One `process_batch` step of `train_linear_regression_pytorch`: forward
through `torch.nn.Linear`, loss through `torch.nn.MSELoss`, then
`optimiser.step()` updates both parameters with their gradients. The
source constructs the optimiser with the hardcoded `lr=0.05`, so the step
uses `1/20` regardless of the `learning_rate` argument. -/
def processBatchPT (s : ℚ × ℚ) (batch : List (ℚ × ℚ)) : (ℚ × ℚ) × ℚ :=
  let w := s.1
  let b := s.2
  let y_hat := batch.map (fun p => linearForward w b p.1)
  let loss := mseLossPT y_hat (batch.map Prod.snd)
  let gw := meanQ ((y_hat.zip batch).map (fun q => 2 * (q.1 - q.2.2) * q.2.1))
  let gb := meanQ ((y_hat.zip batch).map (fun q => 2 * (q.1 - q.2.2)))
  ((sgdStepPT (1 / 20) w gw, sgdStepPT (1 / 20) b gb), loss)

/-- One `process_epoch`: run a batch step over every batch of the data
loader in order, collecting each batch's loss. -/
def runEpoch (pb : (ℚ × ℚ) → List (ℚ × ℚ) → (ℚ × ℚ) × ℚ)
    (batches : List (List (ℚ × ℚ))) (s : ℚ × ℚ) : (ℚ × ℚ) × List ℚ :=
  batches.foldl (fun acc batch =>
    let r := pb acc.1 batch
    (r.1, acc.2 ++ [r.2])) (s, [])

/-- The from-first-principles training run: `n_epochs` epochs, recording
each epoch's last-batch loss (`[process_batch(X, y) for X, y in
data_loader][-1]`); returns the final parameters and the per-epoch losses. -/
def train_linear_regression (lr : ℚ) (batches : List (List (ℚ × ℚ)))
    (n_epochs : ℕ) (s : ℚ × ℚ) : (ℚ × ℚ) × List (Option ℚ) :=
  (List.range n_epochs).foldl (fun acc _ =>
    let r := runEpoch (processBatchFP lr) batches acc.1
    (r.1, acc.2 ++ [r.2.getLast?])) (s, [])

/-- The library-based training run `train_linear_regression_pytorch`; its
`learning_rate` argument is accepted but unused, because the source
hardcodes `lr=0.05` when constructing the optimiser. -/
def train_linear_regression_pytorch (_learning_rate : ℚ)
    (batches : List (List (ℚ × ℚ))) (n_epochs : ℕ) (s : ℚ × ℚ) :
    (ℚ × ℚ) × List (Option ℚ) :=
  (List.range n_epochs).foldl (fun acc _ =>
    let r := runEpoch processBatchPT batches acc.1
    (r.1, acc.2 ++ [r.2.getLast?])) (s, [])

/-- Test mean-squared error of a model `(w, b)` on a dataset; the notebook
reports its square root (RMSE). -/
def testMSE (s : ℚ × ℚ) (data : List (ℚ × ℚ)) : ℚ :=
  meanQ (data.map (fun p => (s.2 + s.1 * p.1 - p.2) ^ 2))

/-! ## Theorems for the data-model and pipeline claims -/

/-- Claim C1, as stated, is false on the code: the `name` column of the
`Person` model is neither a primary key nor a foreign key, yet its
declaration carries `nullable=False`, a NOT NULL constraint on stored rows
beyond the primary keys and the `address.id` foreign key. -/
theorem C1_counterexample :
    ({ name := "name", ctype := .str, primaryKey := false, autoincrement := false,
       foreignKey := none, nullable := false } : ColumnDecl) ∈ personColumns ∧
    ¬ (∀ c ∈ schemaColumns,
        c.primaryKey = false → c.foreignKey = none → c.nullable = true) := by
  decide

/-- Claim C1 (amended): apart from the primary keys and the
`Person.address_id` foreign key, the only further constraint the column
declarations impose on stored rows is NOT NULL (`nullable=False`), and the
columns carrying it are exactly `Person.name`, `Person.age`,
`Address.street`, `Address.city` and `Address.postcode`. -/
theorem C1_amended_not_null_columns :
    (schemaColumns.filter
        (fun c => !c.primaryKey && c.foreignKey.isNone && !c.nullable)).map
      ColumnDecl.name = ["name", "age", "street", "city", "postcode"] := by
  decide

/-- Claim C2: the two-table schema declares a `Person` model with columns
`id`, `address_id`, `name`, `age`, where `address_id` is a foreign key
referencing `address.id`; an `Address` model with columns `id`, `street`,
`city`, `postcode`; and the two are related one-to-many (the foreign key
sits on the `person` table, pointing at `address`, and not conversely),
with mutually back-populating relationship attributes `Person.address` and
`Address.person`. -/
theorem C2_schema :
    personModel.columns.map ColumnDecl.name = ["id", "address_id", "name", "age"] ∧
    (∃ c ∈ personModel.columns, c.name = "address_id" ∧ c.foreignKey = some "address.id") ∧
    addressModel.columns.map ColumnDecl.name = ["id", "street", "city", "postcode"] ∧
    manyToOneOf personModel addressModel = true ∧
    manyToOneOf addressModel personModel = false ∧
    personModel.relationships =
      [("address", { target := "Address", backPopulates := "person" })] ∧
    addressModel.relationships =
      [("person", { target := "Person", backPopulates := "address" })] := by
  decide

/-- Claim C3: `dvc.yaml` declares exactly the two stages `get_data` and
`train_model`, the declared output of `get_data` is `artefacts/dataset.csv`,
that file appears among the declared dependencies of `train_model`, so
`train_model` depends on `get_data` (and not conversely), ordering
`get_data` first. -/
theorem C3_pipeline_stages :
    dvcStages.map Stage.name = ["get_data", "train_model"] ∧
    get_data.outs = ["artefacts/dataset.csv"] ∧
    "artefacts/dataset.csv" ∈ train_model.deps ∧
    dependsOn train_model get_data = true ∧
    dependsOn get_data train_model = false := by
  decide

/-- Claim C6: the `train_model` stage declares exactly one parameter
`train.random_state`, exactly the two dependencies `artefacts/dataset.csv`
and `stages/get_data.py`, exactly one output `artefacts/model.joblib`, and
one metrics file `metrics/metrics.json` with `cache` set to false. -/
theorem C6_train_model_stage :
    train_model.params = ["train.random_state"] ∧
    train_model.deps = ["artefacts/dataset.csv", "stages/get_data.py"] ∧
    train_model.outs = ["artefacts/model.joblib"] ∧
    train_model.metrics = [{ path := "metrics/metrics.json", cache := false }] := by
  decide

/-- Claim C10: `Person.dict` returns a dictionary with exactly the keys
`id`, `address_id`, `name`, `age`, each mapped to the corresponding column
attribute, and `Address.dict` returns one with exactly the keys `id`,
`street`, `city`, `postcode`, each mapped to the corresponding column
attribute. -/
theorem C10_dict_methods :
    ∀ (p : Person) (a : Address),
      (p.dict.map Prod.fst = ["id", "address_id", "name", "age"] ∧
       p.dict.lookup "id" = some (optInt p.id) ∧
       p.dict.lookup "address_id" = some (optInt p.address_id) ∧
       p.dict.lookup "name" = some (.strVal p.name) ∧
       p.dict.lookup "age" = some (.floatVal p.age)) ∧
      (a.dict.map Prod.fst = ["id", "street", "city", "postcode"] ∧
       a.dict.lookup "id" = some (optInt a.id) ∧
       a.dict.lookup "street" = some (.strVal a.street) ∧
       a.dict.lookup "city" = some (.strVal a.city) ∧
       a.dict.lookup "postcode" = some (.strVal a.postcode)) := by
  intro p a
  constructor <;>
    refine ⟨rfl, ?_, ?_, ?_, ?_⟩ <;>
      simp [Person.dict, Address.dict, List.lookup]

/-! ## Theorems for the auto-differentiation claims -/

/-- Closed form of the gradient-descent iterates:
`gdIter n - 2 = (-11/2) * (4/5) ^ n`. -/
theorem gd_closed (n : ℕ) : gdIter n - 2 = (-11 / 2) * (4 / 5) ^ n := by
  induction n with
  | zero => norm_num [gdIter]
  | succ n ih =>
    have h : gdIter n = (-11 / 2) * (4 / 5) ^ n + 2 := by linarith [ih]
    show gdStep (gdIter n) - 2 = _
    rw [gdStep, f_dx, eta, h]; ring

/-- Claim C4: the modelled gradient `f_dx` is the true derivative of
`f(x) = (x - 2)^2`; every iterate of the loop `x -= 0.1 * f_dx x` from
`x0 = -3.5` satisfies `x_(n+1) - 2 = 0.8 * (x_n - 2)`; the distance
`|x_n - 2|` is strictly decreasing; and in exact arithmetic the final
iterate `x_50` lies within `0.005` of `2`, so `100 * x_50` rounds to `200`,
i.e. `x_50` prints as `2.00` to two decimal places. -/
theorem C4_gradient_descent :
    (∀ x : ℝ, HasDerivAt fR (2 * (x - 2)) x) ∧
    (∀ n : ℕ, gdIter (n + 1) - 2 = 4 / 5 * (gdIter n - 2)) ∧
    (∀ n : ℕ, |gdIter (n + 1) - 2| < |gdIter n - 2|) ∧
    |gdIter 50 - 2| < 5 / 1000 ∧
    round (100 * gdIter 50) = 200 := by
  refine ⟨?_, ?_, ?_, ?_, ?_⟩
  · intro x
    have h : HasDerivAt (fun y : ℝ => (y - 2) ^ 2) (2 * (x - 2) ^ (2 - 1) * 1) x :=
      ((hasDerivAt_id x).sub_const 2).pow 2
    simpa [fR] using h
  · intro n
    show gdStep (gdIter n) - 2 = _
    rw [gdStep, f_dx, eta]; ring
  · intro n
    have h1 := gd_closed n
    have h2 := gd_closed (n + 1)
    rw [h1, h2, abs_mul, abs_mul, abs_pow, abs_pow]
    have hb : |(4:ℚ) / 5| = 4 / 5 := by norm_num
    have ha : |(-11:ℚ) / 2| = 11 / 2 := by norm_num
    rw [hb, ha, pow_succ]
    have hp : (0:ℚ) < (4 / 5) ^ n := by positivity
    nlinarith
  · have h := gd_closed 50
    have ha : |(-11:ℚ) / 2| = 11 / 2 := by norm_num
    have hb : |(4:ℚ) / 5| = 4 / 5 := by norm_num
    rw [h, abs_mul, abs_pow, ha, hb]
    norm_num
  · have h : gdIter 50 = 2 - 11 / 2 * (4 / 5) ^ 50 := by have := gd_closed 50; linarith
    have hp1 : (0:ℚ) < (4 / 5) ^ 50 := by positivity
    have hp2 : ((4:ℚ) / 5) ^ 50 < 1 / 1100 := by norm_num
    rw [h, round_eq, Int.floor_eq_iff]
    push_cast
    constructor <;> nlinarith

/-- Unfolding of `sum_of_squaresR` on a cons cell. -/
theorem sosR_cons (a : ℝ) (l : List ℝ) :
    sum_of_squaresR (a :: l) = a ^ 2 + sum_of_squaresR l := by
  simp [sum_of_squaresR]

/-- The partial derivative of the real sum-of-squares in its `i`-th
coordinate is `2 * x_i`. -/
theorem sos_deriv : ∀ (x : List ℝ) (i : ℕ) (h : i < x.length),
    HasDerivAt (fun t => sum_of_squaresR (x.set i t))
      (2 * x.get ⟨i, h⟩) (x.get ⟨i, h⟩) := by
  intro x
  induction x with
  | nil => intro i h; simp at h
  | cons a l ih =>
    intro i h
    cases i with
    | zero =>
      simp only [List.set_cons_zero, List.get]
      have h1 : (fun t : ℝ => sum_of_squaresR (t :: l)) =
          fun t => t ^ 2 + sum_of_squaresR l := funext fun t => sosR_cons t l
      rw [h1]
      simpa using (hasDerivAt_pow 2 a).add_const (sum_of_squaresR l)
    | succ i =>
      simp only [List.set_cons_succ, List.get]
      have h1 : (fun t : ℝ => sum_of_squaresR (a :: l.set i t)) =
          fun t => a ^ 2 + sum_of_squaresR (l.set i t) :=
        funext fun t => sosR_cons a (l.set i t)
      rw [h1]
      exact (ih i (by simpa using h)).const_add (a ^ 2)

/-- Claim C7: the gradient of `sum_of_squares` is the elementwise map
`x ↦ 2 * x` (each partial derivative of the real-valued function is
`2 * x_i`), and on the input `[1, 2, 3, 4, 5]` the function value is `55`
and the gradient is `[2, 4, 6, 8, 10]`. -/
theorem C7_sum_of_squares_gradient :
    (∀ (x : List ℝ) (i : Fin x.length),
        HasDerivAt (fun t => sum_of_squaresR (x.set i t))
          (2 * x.get i) (x.get i)) ∧
    sum_of_squares [1, 2, 3, 4, 5] = 55 ∧
    sum_of_squares_dx [1, 2, 3, 4, 5] = [2, 4, 6, 8, 10] := by
  refine ⟨fun x i => sos_deriv x i.1 i.2, ?_, ?_⟩
  · norm_num [sum_of_squares]
  · norm_num [sum_of_squares_dx]

/-! ## Theorems for the SpaCy component claim -/

theorem mark_getElem? {α : Type} (d : List (Token α)) (j m : ℕ) :
    (markSentStart d j)[m]? =
      if j = m then d[m]?.map (fun t => { t with is_sent_start := some true })
      else d[m]? := by
  rw [markSentStart, List.getElem?_modify]
  by_cases h : j = m <;> simp [h]

theorem textAt_mark {α : Type} (d : List (Token α)) (j m : ℕ) :
    ((markSentStart d j)[m]?).map Token.text = (d[m]?).map Token.text := by
  rw [mark_getElem?]
  by_cases h : j = m
  · simp only [h, if_pos rfl]
    cases d[m]? <;> simp
  · simp [h]

theorem csdStep_eq_of_not_delim {α : Type} (d : List (Token α)) (i : ℕ)
    (h : (d[i]?).map Token.text ≠ some "...") : csdStep d i = d := by
  rw [csdStep]
  cases hd : d[i]? with
  | none => rfl
  | some t =>
    rw [hd] at h
    simp only [Option.map_some'] at h
    have ht : t.text ∉ delimiters := by
      simp only [delimiters, List.mem_singleton]
      intro he
      exact h (by rw [he])
    simp [ht]

theorem csdStep_eq_of_delim {α : Type} (d : List (Token α)) (i : ℕ)
    (h : (d[i]?).map Token.text = some "...") :
    csdStep d i = markSentStart d (i + 1) := by
  rw [csdStep]
  cases hd : d[i]? with
  | none => rw [hd] at h; simp at h
  | some t =>
    rw [hd] at h
    simp only [Option.map_some', Option.some.injEq] at h
    simp [delimiters, h]

theorem textAt_csdStep {α : Type} (d : List (Token α)) (i m : ℕ) :
    ((csdStep d i)[m]?).map Token.text = (d[m]?).map Token.text := by
  by_cases h : (d[i]?).map Token.text = some "..."
  · rw [csdStep_eq_of_delim d i h, textAt_mark]
  · rw [csdStep_eq_of_not_delim d i h]

theorem csd_fold_iss {α : Type} :
    ∀ (L : List ℕ) (d : List (Token α)) (j : ℕ),
    ((L.foldl csdStep d)[j]?).map Token.is_sent_start =
      if ∃ i ∈ L, j = i + 1 ∧ (d[i]?).map Token.text = some "..."
      then (d[j]?).map (fun _ => some true)
      else (d[j]?).map Token.is_sent_start := by
  intro L
  induction L with
  | nil => intro d j; simp
  | cons i₀ L ih =>
    intro d j
    rw [List.foldl_cons, ih (csdStep d i₀) j]
    by_cases hc : (d[i₀]?).map Token.text = some "..."
    · rw [csdStep_eq_of_delim d i₀ hc]
      by_cases hj : j = i₀ + 1
      · have hB : ∃ i ∈ i₀ :: L, j = i + 1 ∧ (d[i]?).map Token.text = some "..." :=
          ⟨i₀, List.mem_cons_self i₀ L, hj, hc⟩
        rw [if_pos hB]
        by_cases hA : ∃ i ∈ L, j = i + 1 ∧ (d[i]?).map Token.text = some "..."
        · have hA' : ∃ i ∈ L, j = i + 1 ∧
              ((markSentStart d (i₀ + 1))[i]?).map Token.text = some "..." := by
            obtain ⟨i, hiL, hji, hti⟩ := hA
            exact ⟨i, hiL, hji, by rw [textAt_mark]; exact hti⟩
          rw [if_pos hA', mark_getElem?, if_pos hj.symm]
          cases d[j]? <;> simp
        · have hA' : ¬ ∃ i ∈ L, j = i + 1 ∧
              ((markSentStart d (i₀ + 1))[i]?).map Token.text = some "..." := by
            intro ⟨i, hiL, hji, hti⟩
            rw [textAt_mark] at hti
            exact hA ⟨i, hiL, hji, hti⟩
          rw [if_neg hA', mark_getElem?, if_pos hj.symm]
          cases d[j]? <;> simp
      · have hd' : (markSentStart d (i₀ + 1))[j]? = d[j]? := by
          rw [mark_getElem?, if_neg (fun h => hj h.symm)]
        by_cases hA : ∃ i ∈ L, j = i + 1 ∧ (d[i]?).map Token.text = some "..."
        · have hA' : ∃ i ∈ L, j = i + 1 ∧
              ((markSentStart d (i₀ + 1))[i]?).map Token.text = some "..." := by
            obtain ⟨i, hiL, hji, hti⟩ := hA
            exact ⟨i, hiL, hji, by rw [textAt_mark]; exact hti⟩
          have hBA : ∃ i ∈ i₀ :: L, j = i + 1 ∧ (d[i]?).map Token.text = some "..." := by
            obtain ⟨i, hiL, hji, hti⟩ := hA
            exact ⟨i, List.mem_cons_of_mem _ hiL, hji, hti⟩
          rw [if_pos hA', if_pos hBA, hd']
        · have hA' : ¬ ∃ i ∈ L, j = i + 1 ∧
              ((markSentStart d (i₀ + 1))[i]?).map Token.text = some "..." := by
            intro ⟨i, hiL, hji, hti⟩
            rw [textAt_mark] at hti
            exact hA ⟨i, hiL, hji, hti⟩
          have hBA : ¬ ∃ i ∈ i₀ :: L, j = i + 1 ∧ (d[i]?).map Token.text = some "..." := by
            intro ⟨i, hiM, hji, hti⟩
            rcases List.mem_cons.mp hiM with he | hiL
            · exact hj (he ▸ hji)
            · exact hA ⟨i, hiL, hji, hti⟩
          rw [if_neg hA', if_neg hBA, hd']
    · rw [csdStep_eq_of_not_delim d i₀ hc]
      by_cases hA : ∃ i ∈ L, j = i + 1 ∧ (d[i]?).map Token.text = some "..."
      · have hBA : ∃ i ∈ i₀ :: L, j = i + 1 ∧ (d[i]?).map Token.text = some "..." := by
          obtain ⟨i, hiL, hji, hti⟩ := hA
          exact ⟨i, List.mem_cons_of_mem _ hiL, hji, hti⟩
        rw [if_pos hA, if_pos hBA]
      · have hBA : ¬ ∃ i ∈ i₀ :: L, j = i + 1 ∧ (d[i]?).map Token.text = some "..." := by
          intro ⟨i, hiM, hji, hti⟩
          rcases List.mem_cons.mp hiM with he | hiL
          · exact hc (he ▸ hti)
          · exact hA ⟨i, hiL, hji, hti⟩
        rw [if_neg hA, if_neg hBA]

theorem map_text_mark {α : Type} (d : List (Token α)) (j : ℕ) :
    (markSentStart d j).map Token.text = d.map Token.text := by
  apply List.ext_getElem?
  intro m
  rw [List.getElem?_map, List.getElem?_map, textAt_mark]

theorem map_attrs_mark {α : Type} (d : List (Token α)) (j : ℕ) :
    (markSentStart d j).map Token.attrs = d.map Token.attrs := by
  apply List.ext_getElem?
  intro m
  rw [List.getElem?_map, List.getElem?_map, mark_getElem?]
  by_cases h : j = m
  · rw [if_pos h]
    cases d[m]? <;> simp
  · rw [if_neg h]

theorem map_text_csdStep {α : Type} (d : List (Token α)) (i : ℕ) :
    (csdStep d i).map Token.text = d.map Token.text := by
  by_cases h : (d[i]?).map Token.text = some "..."
  · rw [csdStep_eq_of_delim d i h, map_text_mark]
  · rw [csdStep_eq_of_not_delim d i h]

theorem map_attrs_csdStep {α : Type} (d : List (Token α)) (i : ℕ) :
    (csdStep d i).map Token.attrs = d.map Token.attrs := by
  by_cases h : (d[i]?).map Token.text = some "..."
  · rw [csdStep_eq_of_delim d i h, map_attrs_mark]
  · rw [csdStep_eq_of_not_delim d i h]

theorem csd_fold_text {α : Type} :
    ∀ (L : List ℕ) (d : List (Token α)),
    (L.foldl csdStep d).map Token.text = d.map Token.text := by
  intro L
  induction L with
  | nil => intro d; rfl
  | cons i₀ L ih => intro d; rw [List.foldl_cons, ih, map_text_csdStep]

theorem csd_fold_attrs {α : Type} :
    ∀ (L : List ℕ) (d : List (Token α)),
    (L.foldl csdStep d).map Token.attrs = d.map Token.attrs := by
  intro L
  induction L with
  | nil => intro d; rfl
  | cons i₀ L ih => intro d; rw [List.foldl_cons, ih, map_attrs_csdStep]

/-- Claim C9: for every document, `custom_sentence_delimiters` returns the
same document except that `is_sent_start` is set to `True` for exactly the
tokens whose immediately preceding token has text `"..."` (a final `"..."`
token marks nothing, since only tokens before the last are examined), and
no other token attribute is modified. -/
theorem C9_custom_sentence_delimiters :
    ∀ (α : Type) (doc : List (Token α)),
      ((custom_sentence_delimiters doc).map Token.text = doc.map Token.text) ∧
      ((custom_sentence_delimiters doc).map Token.attrs = doc.map Token.attrs) ∧
      ∀ j : ℕ,
        ((custom_sentence_delimiters doc)[j]?).map Token.is_sent_start =
          if 1 ≤ j ∧ j < doc.length ∧ (doc[j-1]?).map Token.text = some "..."
          then some (some true)
          else (doc[j]?).map Token.is_sent_start := by
  intro α doc
  refine ⟨csd_fold_text _ _, csd_fold_attrs _ _, ?_⟩
  intro j
  rw [custom_sentence_delimiters, csd_fold_iss]
  by_cases hr : 1 ≤ j ∧ j < doc.length ∧ (doc[j-1]?).map Token.text = some "..."
  · obtain ⟨h1, h2, h3⟩ := hr
    have hA : ∃ i ∈ List.range (doc.length - 1), j = i + 1 ∧
        (doc[i]?).map Token.text = some "..." := by
      refine ⟨j - 1, List.mem_range.mpr (by omega), by omega, h3⟩
    rw [if_pos hA, if_pos ⟨h1, h2, h3⟩]
    rw [List.getElem?_eq_getElem h2]
    rfl
  · have hA : ¬ ∃ i ∈ List.range (doc.length - 1), j = i + 1 ∧
        (doc[i]?).map Token.text = some "..." := by
      intro ⟨i, hiL, hji, hti⟩
      have hiR := List.mem_range.mp hiL
      exact hr ⟨by omega, by omega, by rw [show j - 1 = i by omega]; exact hti⟩
    rw [if_neg hA, if_neg hr]

/-! ## Theorems for the error-handling claim -/

/-- In the `Except` monad a `foldlM` either succeeds, or returns exactly the
error produced by its step function at some intermediate state. -/
theorem foldlM_except_ok_or_error {σ β ε : Type} (g : σ → β → Except ε σ) :
    ∀ (L : List β) (s : σ),
      (∃ r, L.foldlM g s = .ok r) ∨
      (∃ s' b e, b ∈ L ∧ g s' b = .error e ∧ L.foldlM g s = .error e) := by
  intro L
  induction L with
  | nil => intro s; exact .inl ⟨s, rfl⟩
  | cons b L ih =>
    intro s
    rw [List.foldlM_cons]
    cases hg : g s b with
    | error e =>
      right
      exact ⟨s, b, e, List.mem_cons_self b L, hg, rfl⟩
    | ok s' =>
      rcases ih s' with ⟨r, hr⟩ | ⟨s'', b', e, hb, hge, hfold⟩
      · exact .inl ⟨r, hr⟩
      · exact .inr ⟨s'', b', e, List.mem_cons_of_mem _ hb, hge, hfold⟩

theorem foldlM_error_source {σ β ε : Type} (g : σ → β → Except ε σ)
    (L : List β) (s : σ) (e : ε) (h : L.foldlM g s = .error e) :
    ∃ s' b, b ∈ L ∧ g s' b = .error e := by
  rcases foldlM_except_ok_or_error g L s with ⟨r, hr⟩ | ⟨s', b, e', hb, hge, hfold⟩
  · rw [h] at hr; cases hr
  · have he : e' = e := by
      have h2 := hfold.symm.trans h
      injection h2
    exact ⟨s', b, hb, he ▸ hge⟩

theorem csdStepE_error {α ε : Type}
    (assign : List (Token α) → ℕ → Except ε (List (Token α)))
    (d : List (Token α)) (i : ℕ) (e : ε)
    (h : csdStepE assign d i = .error e) : assign d (i + 1) = .error e := by
  rw [csdStepE] at h
  cases hd : d[i]? with
  | none => rw [hd] at h; cases h
  | some t =>
    rw [hd] at h
    have h' : (if t.text ∈ delimiters then assign d (i + 1) else pure d) = Except.error e := h
    by_cases ht : t.text ∈ delimiters
    · rwa [if_pos ht] at h'
    · rw [if_neg ht] at h'; cases h'

theorem process_batchE_error {σ β ε : Type} (pb : σ → β → Except ε (σ × ℚ))
    (acc : σ × List ℚ) (batch : β) (e : ε)
    (h : process_batchE pb acc batch = .error e) : pb acc.1 batch = .error e := by
  rw [process_batchE] at h
  cases hp : pb acc.1 batch with
  | error e' =>
    rw [hp] at h
    have h2 : (Except.error e' : Except ε (σ × List ℚ)) = .error e := h
    injection h2 with he
    rw [he]
  | ok r => rw [hp] at h; cases h

theorem run_epochE_error {σ β ε : Type} (pb : σ → β → Except ε (σ × ℚ))
    (batches : List β) (acc : σ × List (List ℚ)) (n : ℕ) (e : ε)
    (h : run_epochE pb batches acc n = .error e) :
    ∃ s' b, b ∈ batches ∧ pb s' b = .error e := by
  rw [run_epochE] at h
  cases hp : process_epochE pb batches acc.1 with
  | error e' =>
    rw [hp] at h
    have h2 : (Except.error e' : Except ε (σ × List (List ℚ))) = .error e := h
    injection h2 with he
    obtain ⟨a', b, hb, hpe⟩ := foldlM_error_source _ _ _ _ (he ▸ hp)
    exact ⟨a'.1, b, hb, process_batchE_error pb a' b e hpe⟩
  | ok r => rw [hp] at h; cases h

/-- Claim C5: in the monadic embeddings of the repository's functions
(exemplified by `custom_sentence_delimiters` and `train_linear_regression`),
evaluation contains no exception handler: each run either returns a normal
result, or returns exactly the error raised by one of the called external
operations, unchanged — never an alternative error result in its place. -/
theorem C5_exceptions_propagate :
    ∀ (α ε σ β : Type)
      (assign : List (Token α) → ℕ → Except ε (List (Token α)))
      (doc : List (Token α))
      (pb : σ → β → Except ε (σ × ℚ)) (batches : List β) (n_epochs : ℕ) (s : σ),
      ((∃ r, custom_sentence_delimitersE assign doc = .ok r) ∨
       (∃ d j e, assign d j = .error e ∧
          custom_sentence_delimitersE assign doc = .error e)) ∧
      ((∃ r, train_linear_regressionE pb batches n_epochs s = .ok r) ∨
       (∃ s' b e, b ∈ batches ∧ pb s' b = .error e ∧
          train_linear_regressionE pb batches n_epochs s = .error e)) := by
  intro α ε σ β assign doc pb batches n_epochs s
  constructor
  · rcases foldlM_except_ok_or_error (csdStepE assign) (List.range (doc.length - 1)) doc
      with ⟨r, hr⟩ | ⟨d, i, e, _, hstep, hfold⟩
    · exact .inl ⟨r, hr⟩
    · exact .inr ⟨d, i + 1, e, csdStepE_error assign d i e hstep, hfold⟩
  · rcases foldlM_except_ok_or_error (run_epochE pb batches) (List.range n_epochs) (s, [])
      with ⟨r, hr⟩ | ⟨acc, n, e, _, hrun, hfold⟩
    · exact .inl ⟨r, hr⟩
    · obtain ⟨s', b, hb, hpb⟩ := run_epochE_error pb batches acc n e hrun
      exact .inr ⟨s', b, e, hb, hpb, hfold⟩

/-! ## Theorems for the training-loop refinement claim -/

/-- At learning rate `0.05` a single batch step of the from-first-principles
loop equals a single batch step of the library-based loop. -/
theorem processBatch_eq (s : ℚ × ℚ) (batch : List (ℚ × ℚ)) :
    processBatchFP (1 / 20) s batch = processBatchPT s batch := by
  have hy : batch.map (fun p => s.2 + s.1 * p.1) =
      batch.map (fun p => linearForward s.1 s.2 p.1) :=
    List.map_congr_left (fun p _ => by rw [linearForward]; ring)
  simp only [processBatchFP, processBatchPT, sgdStepPT, mseLossPT]
  rw [hy, List.zip_map_right, List.map_map]
  rfl

/-- Claim C8: at learning rate `0.05`, on any dataset (batches in data
loader order), from any identical initial parameters and for any number of
epochs, the from-first-principles loop `train_linear_regression` performs
exactly the same parameter update on every batch as
`train_linear_regression_pytorch`, and produces the same per-epoch losses,
the same final model, and hence the same test error on any test set. -/
theorem C8_training_loops_equivalent :
    ∀ (lr : ℚ) (batches : List (List (ℚ × ℚ))) (n_epochs : ℕ) (s : ℚ × ℚ),
      lr = 1 / 20 →
      (∀ (s' : ℚ × ℚ) (batch : List (ℚ × ℚ)),
          processBatchFP lr s' batch = processBatchPT s' batch) ∧
      train_linear_regression lr batches n_epochs s =
        train_linear_regression_pytorch lr batches n_epochs s ∧
      ∀ testData : List (ℚ × ℚ),
        testMSE (train_linear_regression lr batches n_epochs s).1 testData =
          testMSE (train_linear_regression_pytorch lr batches n_epochs s).1 testData := by
  intro lr batches n_epochs s hlr
  subst hlr
  have hpb : processBatchFP (1 / 20) = processBatchPT :=
    funext fun s' => funext fun batch => processBatch_eq s' batch
  have htrain : train_linear_regression (1 / 20) batches n_epochs s =
      train_linear_regression_pytorch (1 / 20) batches n_epochs s := by
    rw [train_linear_regression, train_linear_regression_pytorch, hpb]
  exact ⟨fun s' batch => processBatch_eq s' batch, htrain, fun testData => by rw [htrain]⟩

/-- Witness for claim C8 at a concrete run: one batch of two points, two
epochs, zero-initialized parameters, learning rate `0.05`. -/
theorem C8_witness :
    ((1 : ℚ) / 20 = 1 / 20) ∧
    train_linear_regression (1 / 20) [[(1, 2), (2, 3)]] 2 (0, 0) =
      train_linear_regression_pytorch (1 / 20) [[(1, 2), (2, 3)]] 2 (0, 0) :=
  ⟨rfl, (C8_training_loops_equivalent (1 / 20) [[(1, 2), (2, 3)]] 2 (0, 0) rfl).2.1⟩

end NotesAndDemos
